import Mathlib

/-!
Verification of the paper-repository core of `streamlit_app.py`
(ernesthenry/remote-research): the topic store (`save_papers_to_file`,
`get_paper_info`), topic-key normalization, the search wrapper
(`search_papers`), the chat-context construction of the chat tab, and the
conversation-log handler.

Modelling conventions:
* Python strings are sequences of code points, so Python string operations
  (`lower`, single-character `replace`, slicing `[:n]`, `join`) are embedded
  as operations on `List Char` wrapped back into `String`.
* The on-disk layout (one directory per normalized topic holding one
  `papers_info.json` mapping id -> fields) is embedded as an ordered
  association list of buckets; `os.listdir` enumeration is modelled as that
  list's order, with a new topic directory appended on first creation.
* Python `dict` is embedded as an ordered association list where inserting an
  existing key updates the value in place (Python dicts keep first-insertion
  position) and a new key is appended.
* Effects (`st.error` reports, file-write failures, the external arXiv and
  Anthropic collaborators) are made explicit: reported messages accumulate in
  a list, and each external call's outcome is an explicit `Except`/`Option`
  argument.
-/

/-- Python `str.lower()` applied per code point (src line 85 `topic.lower()`). -/
def pyLower (s : String) : String := ⟨s.data.map Char.toLower⟩

/-- Python `.replace(" ", "_")` (src line 85): a single-character pattern
replacement is a per-code-point map. -/
def replaceSpaceUnderscore (s : String) : String :=
  ⟨s.data.map (fun c => if c = ' ' then '_' else c)⟩

/-- `topic.lower().replace(" ", "_")`, the normalized topic key (src line 85). -/
def normalizeTopic (topic : String) : String :=
  replaceSpaceUnderscore (pyLower topic)

/-- Python slice `s[:n]` on a string (code points). -/
def pySlice (s : String) (n : Nat) : String := ⟨s.data.take n⟩

/-- Python `", ".join(xs)` (src line 64). -/
def commaJoin : List String → String
  | [] => ""
  | [a] => a
  | a :: rest => a ++ ", " ++ commaJoin rest

/-- The in-memory paper record built by `search_papers` (src lines 60-70). -/
structure PaperRecord where
  id : String
  title : String
  authors : List String
  authors_str : String
  summary : String
  pdf_url : String
  published : String
  categories : List String
  primary_category : String
deriving Repr, DecidableEq

/-- The persisted projection written by `save_papers_to_file`
(src lines 94-100): exactly title, authors, summary, pdf_url, published. -/
structure PaperInfo where
  title : String
  authors : List String
  summary : String
  pdf_url : String
  published : String
deriving Repr, DecidableEq

/-- The value stored under `papers_info[paper['id']]` (src lines 94-100). -/
def projectPaper (p : PaperRecord) : PaperInfo :=
  { title := p.title, authors := p.authors, summary := p.summary,
    pdf_url := p.pdf_url, published := p.published }

/-- Python dict insertion `d[k] = v`: an existing key keeps its position and
gets the new value, a new key is appended at the end. -/
def dictInsert {α : Type} (k : String) (v : α) : List (String × α) → List (String × α)
  | [] => [(k, v)]
  | (k', v') :: rest =>
    if k' = k then (k, v) :: rest else (k', v') :: dictInsert k v rest

/-- Python dict lookup `d[k]` guarded by `k in d`, as an `Option`. -/
def dictLookup {α : Type} (k : String) : List (String × α) → Option α
  | [] => none
  | (k', v) :: rest => if k = k' then some v else dictLookup k rest

/-- The per-topic `papers_info.json` content: paper id -> persisted fields. -/
abbrev Bucket := List (String × PaperInfo)

/-- The `papers/` directory: one entry per topic directory, in `os.listdir`
order (modelled as creation order), each holding its `papers_info.json`. -/
abbrev Store := List (String × Bucket)

/-- The `papers_info` dict built by the loop at src lines 92-100: later
records with the same id overwrite earlier ones. -/
def buildPapersInfo (papers : List PaperRecord) : Bucket :=
  papers.foldl (fun acc p => dictInsert p.id (projectPaper p) acc) []

/-- `save_papers_to_file` (src lines 82-106), successful path: normalize the
topic key, build the projection dict, overwrite that topic's file (creating
the directory, i.e. appending a new bucket, if absent). -/
def save_papers_to_file (topic : String) (papers : List PaperRecord) (store : Store) : Store :=
  dictInsert (normalizeTopic topic) (buildPapersInfo papers) store

/-- The scan loop of `get_paper_info` (src lines 111-120): per directory,
open its `papers_info.json` and return the entry if the id is a key. -/
def findInBuckets (paper_id : String) : Store → Option PaperInfo
  | [] => none
  | (_, bucket) :: rest =>
    match dictLookup paper_id bucket with
    | some info => some info
    | none => findInBuckets paper_id rest

/-- `get_paper_info` (src lines 108-123): linear scan over every topic
bucket, first match wins, `None` if no bucket holds the id. -/
def get_paper_info (paper_id : String) (store : Store) : Option PaperInfo :=
  findInBuckets paper_id store

/-- Reported user-visible messages (`st.error`) plus the persisted store. -/
structure AppState where
  store : Store
  errors : List String
deriving Repr, DecidableEq

/-- `save_papers_to_file` with its `try/except` (src lines 84-106): a file
write failure is caught inside, reported via `st.error`, and not re-raised;
on failure nothing is persisted. `writeFail` is the exception message of the
failing write, if any. -/
def save_papers_to_fileEff (topic : String) (papers : List PaperRecord)
    (writeFail : Option String) (st : AppState) : AppState :=
  match writeFail with
  | some e => { st with errors := st.errors ++ ["Error saving papers: " ++ e] }
  | none => { st with store := save_papers_to_file topic papers st.store }

/-- One raw arXiv result as consumed at src lines 60-70. -/
structure RawPaper where
  short_id : String
  title : String
  authors : List String
  summary : String
  pdf_url : String
  published : String
  categories : List String
  primary_category : String
deriving Repr, DecidableEq

/-- The normalizer: the `paper_info` dict built at src lines 60-70 from one
raw arXiv result. -/
def rawToRecord (r : RawPaper) : PaperRecord :=
  { id := r.short_id, title := r.title, authors := r.authors,
    authors_str := commaJoin r.authors, summary := r.summary,
    pdf_url := r.pdf_url, published := r.published,
    categories := r.categories, primary_category := r.primary_category }

/-- `search_papers` (src lines 44-80). `collab` is the outcome of the arXiv
client call (src lines 48-55): a list of raw results or an exception message.
An exception anywhere in the `try` block is caught, reported, and turned into
`[]` (src lines 78-80); the store's own save failure is caught inside
`save_papers_to_file` and never reaches this handler. -/
def search_papers (topic : String) (collab : Except String (List RawPaper))
    (writeFail : Option String) (st : AppState) : List PaperRecord × AppState :=
  match collab with
  | .error e => ([], { st with errors := st.errors ++ ["Error searching papers: " ++ e] })
  | .ok raws =>
    let papers_data := raws.map rawToRecord
    let st2 := save_papers_to_fileEff topic papers_data writeFail st
    (papers_data, st2)

/-- One formatted context line of the chat tab (src lines 243-244):
title/authors line plus the summary sliced to 200 code points and an
ellipsis marker, then a blank-line separator. -/
def contextLine (p : PaperRecord) : String :=
  "- " ++ p.title ++ " by " ++ p.authors_str ++ "\n" ++
  "  Summary: " ++ pySlice p.summary 200 ++ "..." ++ "\n\n"

/-- The context construction of the chat tab (src lines 239-244): empty when
no papers are cached, otherwise a header followed by one block per paper of
`papers_data[:3]`. -/
def buildContext (papers : List PaperRecord) : String :=
  if papers.isEmpty then ""
  else (papers.take 3).foldl (fun acc p => acc ++ contextLine p)
    "Here are some recent papers I found:\n\n"

/-- One turn of `st.session_state.chat_history` (src lines 236, 251). -/
structure Turn where
  role : String
  content : String
deriving Repr, DecidableEq

/-- `chat_with_claude` (src lines 125-142). `configured` is whether the
Anthropic client exists; `callResult` is the outcome of the
`messages.create` call: response text or exception message. Every branch
returns a string; a failure becomes the returned message. -/
def chat_with_claude (configured : Bool) (callResult : Except String String) : String :=
  if configured = false then
    "❌ Anthropic API not configured. Please set ANTHROPIC_API_KEY in your .env file."
  else
    match callResult with
    | .ok text => text
    | .error e => "❌ Error calling Claude: " ++ e

/-- The chat-input handler (src lines 234-254): append the user turn, call
`chat_with_claude`, append its return value as the assistant turn. -/
def chatStep (configured : Bool) (history : List Turn)
    (sub : String × Except String String) : List Turn :=
  history ++ [⟨"user", sub.1⟩, ⟨"assistant", chat_with_claude configured sub.2⟩]

/-- A whole session: fold the handler over the user's submissions, starting
from the empty `chat_history` (src line 27). -/
def runChat (configured : Bool) (subs : List (String × Except String String)) : List Turn :=
  subs.foldl (chatStep configured) []

/-- The session log alternates user, assistant, user, assistant, ...
(forcing even length). -/
def alternatesUA : List Turn → Bool
  | [] => true
  | [_] => false
  | u :: a :: rest => u.role == "user" && a.role == "assistant" && alternatesUA rest

/-- `needle` is a leading segment of `haystack`. -/
def leadsList : List Char → List Char → Bool
  | [], _ => true
  | _ :: _, [] => false
  | a :: as, b :: bs => a == b && leadsList as bs

/-- `needle` occurs contiguously inside `haystack`. -/
def occursIn (needle haystack : List Char) : Bool :=
  match haystack with
  | [] => needle.isEmpty
  | _ :: rest => leadsList needle haystack || occursIn needle rest

/-- Substring containment on strings (code-point level, Python `in`). -/
def containsStr (haystack needle : String) : Bool :=
  occursIn needle.data haystack.data

/-- An association list whose keys are pairwise distinct. -/
def noDupKeysB {α : Type} : List (String × α) → Bool
  | [] => true
  | (k, _) :: rest => (dictLookup k rest).isNone && noDupKeysB rest

/-- The records carry pairwise-distinct identifiers. -/
def distinctIds : List PaperRecord → Bool
  | [] => true
  | r :: rest => rest.all (fun x => !(x.id == r.id)) && distinctIds rest

/-- Per-character normalization: lower-case, then space to underscore (the
composition applied by `normalizeTopic`). -/
def normChar (c : Char) : Char :=
  if c.toLower = ' ' then '_' else c.toLower

/-- Two characters differ only by letter case, or both are space/underscore. -/
def charCaseSpaceEquiv (c1 c2 : Char) : Bool :=
  c1.toLower == c2.toLower || ((c1 == ' ' || c1 == '_') && (c2 == ' ' || c2 == '_'))

/-- Pointwise `charCaseSpaceEquiv` on equal-length character lists. -/
def charsEquiv : List Char → List Char → Bool
  | [], [] => true
  | a :: as, b :: bs => charCaseSpaceEquiv a b && charsEquiv as bs
  | _, _ => false

/-- Two topic strings differ only in letter case or spaces-vs-underscores. -/
def topicsEquiv (t1 t2 : String) : Bool :=
  charsEquiv t1.data t2.data

/-- The concatenation of context lines, one per record. -/
def joinLines : List PaperRecord → String
  | [] => ""
  | p :: rest => contextLine p ++ joinLines rest

/-- Record with the fields that are never persisted blanked out. -/
def stripUnpersisted (p : PaperRecord) : PaperRecord :=
  { p with categories := [], primary_category := "" }

/-- Sample raw search hit, used as a concrete input. -/
def rawSample : RawPaper :=
  { short_id := "2106.01234", title := "T", authors := ["A", "B"],
    summary := "S", pdf_url := "http://x", published := "2021-06-01",
    categories := ["cs.AI"], primary_category := "cs.AI" }

/-- Concrete record constructor for small test inputs. -/
def mkRec (i t a s : String) : PaperRecord :=
  { id := i, title := t, authors := [a], authors_str := a, summary := s,
    pdf_url := "u", published := "2020-01-01", categories := [],
    primary_category := "" }

/-- Two records sharing one identifier but different titles. -/
def recDupA : PaperRecord := mkRec "x1" "first" "a" "s1"

/-- Second record with the same identifier as `recDupA`. -/
def recDupB : PaperRecord := mkRec "x1" "second" "a" "s2"

/-- Projection of a concrete record into the persisted fields. -/
def infoOf (p : PaperRecord) : PaperInfo := projectPaper p

/-- Concrete record 1 for context tests. -/
def recP1 : PaperRecord := mkRec "i1" "t1" "a1" "s1"

/-- Concrete record 2 for context tests. -/
def recP2 : PaperRecord := mkRec "i2" "t2" "a2" "s2"

/-- Concrete record 3 for context tests. -/
def recP3 : PaperRecord := mkRec "i3" "t3" "a3" "s3"

/-- Concrete record 4: its summary `"zzz"` shares no character with the
fields of records 1-3. -/
def recP4 : PaperRecord := mkRec "i4" "t4" "a4" "zzz"

/-- A summary of 201 code points, longer than the 200-character bound. -/
def longSummary : String := ⟨List.replicate 201 'a'⟩

/-- Concrete record with a summary longer than the truncation bound. -/
def recPLong : PaperRecord := mkRec "iL" "tL" "aL" longSummary

/-! ### Helper lemmas on the dictionary embedding -/

theorem dictLookup_dictInsert {α : Type} (kL kI : String) (v : α)
    (d : List (String × α)) :
    dictLookup kL (dictInsert kI v d) = if kL = kI then some v else dictLookup kL d := by
  induction d with
  | nil => simp [dictInsert, dictLookup]
  | cons hd tl ih =>
    obtain ⟨k₀, v₀⟩ := hd
    by_cases h1 : k₀ = kI
    · subst h1
      by_cases h2 : kL = k₀ <;> simp [dictInsert, dictLookup, h2]
    · by_cases h2 : kL = k₀
      · subst h2
        simp [dictInsert, dictLookup, h1, Ne.symm h1]
      · simp [dictInsert, dictLookup, h1, h2, ih]

theorem dictLookup_dictInsert_self {α : Type} (k : String) (v : α)
    (d : List (String × α)) :
    dictLookup k (dictInsert k v d) = some v := by
  simp [dictLookup_dictInsert]

theorem noDupKeysB_dictInsert {α : Type} (k : String) (v : α)
    (d : List (String × α)) :
    noDupKeysB (dictInsert k v d) = noDupKeysB d := by
  induction d with
  | nil => simp [dictInsert, noDupKeysB, dictLookup]
  | cons hd tl ih =>
    obtain ⟨k₀, v₀⟩ := hd
    by_cases h1 : k₀ = k
    · subst h1
      simp [dictInsert, noDupKeysB]
    · simp [dictInsert, noDupKeysB, h1, ih, dictLookup_dictInsert, Ne.symm h1]

theorem noDupKeysB_foldl_dictInsert (papers : List PaperRecord) (acc : Bucket)
    (hacc : noDupKeysB acc = true) :
    noDupKeysB (papers.foldl (fun a p => dictInsert p.id (projectPaper p) a) acc) = true := by
  induction papers generalizing acc with
  | nil => exact hacc
  | cons p rest ih =>
    exact ih (dictInsert p.id (projectPaper p) acc) (by rw [noDupKeysB_dictInsert]; exact hacc)

theorem dictLookup_foldl_dictInsert (papers : List PaperRecord) (acc : Bucket)
    (k : String) :
    dictLookup k (papers.foldl (fun a p => dictInsert p.id (projectPaper p) a) acc) =
      ((papers.reverse.find? (fun r => r.id == k)).map projectPaper).or (dictLookup k acc) := by
  induction papers generalizing acc with
  | nil => simp
  | cons p rest ih =>
    rw [List.foldl_cons, ih, List.reverse_cons, List.find?_append]
    cases hfind : rest.reverse.find? (fun r => r.id == k) with
    | some r => simp
    | none =>
      by_cases h : k = p.id
      · subst h
        simp [dictLookup_dictInsert, List.find?]
      · have hne : (p.id == k) = false := by
          simp [Ne.symm h]
        simp [dictLookup_dictInsert, h, List.find?, hne]

theorem dictLookup_buildPapersInfo (papers : List PaperRecord) (k : String) :
    dictLookup k (buildPapersInfo papers) =
      (papers.reverse.find? (fun r => r.id == k)).map projectPaper := by
  rw [buildPapersInfo, dictLookup_foldl_dictInsert]
  simp [dictLookup]

theorem reverse_find?_of_distinct (records : List PaperRecord) (r : PaperRecord)
    (hdis : distinctIds records = true) (hmem : r ∈ records) :
    records.reverse.find? (fun x => x.id == r.id) = some r := by
  induction records with
  | nil => cases hmem
  | cons p rest ih =>
    simp only [distinctIds, Bool.and_eq_true] at hdis
    rw [List.reverse_cons, List.find?_append]
    rcases List.mem_cons.mp hmem with hrp | hrest
    · subst hrp
      have hnone : rest.reverse.find? (fun x => x.id == r.id) = none := by
        apply List.find?_eq_none.mpr
        intro x hx
        have := List.all_eq_true.mp hdis.1 x (List.mem_reverse.mp hx)
        simpa using this
      simp [hnone, List.find?]
    · rw [ih hdis.2 hrest]
      simp

theorem dictLookup_buildPapersInfo_of_distinct (records : List PaperRecord)
    (r : PaperRecord) (hdis : distinctIds records = true) (hmem : r ∈ records) :
    dictLookup r.id (buildPapersInfo records) = some (projectPaper r) := by
  rw [dictLookup_buildPapersInfo, reverse_find?_of_distinct records r hdis hmem]
  rfl

/-! ### Helper lemmas on the bucket scan -/

theorem findInBuckets_eq_find? (pid : String) (bs : Store) :
    findInBuckets pid bs =
      (bs.find? (fun b => (dictLookup pid b.2).isSome)).bind (fun b => dictLookup pid b.2) := by
  induction bs with
  | nil => simp [findInBuckets]
  | cons hd rest ih =>
    obtain ⟨k, bucket⟩ := hd
    cases h : dictLookup pid bucket with
    | some info => simp [findInBuckets, h, List.find?]
    | none => simp [findInBuckets, h, List.find?, ih]

theorem findInBuckets_eq_none (pid : String) (bs : Store)
    (h : ∀ kb ∈ bs, dictLookup pid kb.2 = none) :
    findInBuckets pid bs = none := by
  induction bs with
  | nil => rfl
  | cons hd rest ih =>
    obtain ⟨k, bucket⟩ := hd
    have hh := h (k, bucket) (List.mem_cons_self ..)
    simp only at hh
    simp only [findInBuckets, hh]
    exact ih (fun kb hkb => h kb (List.mem_cons_of_mem _ hkb))

theorem findInBuckets_first_match (pid : String) (pre : Store) (k : String)
    (b : Bucket) (post : Store) (v : PaperInfo)
    (hpre : ∀ kb ∈ pre, dictLookup pid kb.2 = none)
    (hb : dictLookup pid b = some v) :
    findInBuckets pid (pre ++ (k, b) :: post) = some v := by
  induction pre with
  | nil => simp [findInBuckets, hb]
  | cons hd rest ih =>
    obtain ⟨k₀, b₀⟩ := hd
    have hh := hpre (k₀, b₀) (List.mem_cons_self ..)
    simp only at hh
    simp only [List.cons_append, findInBuckets, hh]
    exact ih (fun kb hkb => hpre kb (List.mem_cons_of_mem _ hkb))

theorem findInBuckets_dictInsert (pid key : String) (B : Bucket) (bs : Store)
    (v : PaperInfo) (hB : dictLookup pid B = some v)
    (hbs : ∀ kb ∈ bs, kb.1 ≠ key → dictLookup pid kb.2 = none) :
    findInBuckets pid (dictInsert key B bs) = some v := by
  induction bs with
  | nil => simp [dictInsert, findInBuckets, hB]
  | cons hd rest ih =>
    obtain ⟨k₀, b₀⟩ := hd
    by_cases h : k₀ = key
    · subst h
      simp [dictInsert, findInBuckets, hB]
    · have hh := hbs (k₀, b₀) (List.mem_cons_self ..) h
      simp only at hh
      simp only [dictInsert, if_neg h, findInBuckets, hh]
      exact ih (fun kb hkb hne => hbs kb (List.mem_cons_of_mem _ hkb) hne)

/-! ### Helper lemmas on topic-key normalization -/

theorem normalizeTopic_data (t : String) :
    (normalizeTopic t).data = t.data.map normChar := by
  simp only [normalizeTopic, replaceSpaceUnderscore, pyLower, List.map_map]
  rfl

theorem normChar_eq_of_equiv (a b : Char) (h : charCaseSpaceEquiv a b = true) :
    normChar a = normChar b := by
  simp only [charCaseSpaceEquiv, Bool.or_eq_true, Bool.and_eq_true, beq_iff_eq] at h
  rcases h with h | ⟨ha, hb⟩
  · simp [normChar, h]
  · rcases ha with ha | ha <;> rcases hb with hb | hb <;> subst ha <;> subst hb <;> decide

theorem charsEquiv_map_normChar (l1 l2 : List Char)
    (h : charsEquiv l1 l2 = true) :
    l1.map normChar = l2.map normChar := by
  induction l1 generalizing l2 with
  | nil => cases l2 with
    | nil => rfl
    | cons b bs => simp [charsEquiv] at h
  | cons a as ih =>
    cases l2 with
    | nil => simp [charsEquiv] at h
    | cons b bs =>
      simp only [charsEquiv, Bool.and_eq_true] at h
      simp [List.map_cons, normChar_eq_of_equiv a b h.1, ih bs h.2]

theorem normalizeTopic_eq_of_equiv (t1 t2 : String)
    (h : topicsEquiv t1 t2 = true) :
    normalizeTopic t1 = normalizeTopic t2 := by
  apply String.ext
  rw [normalizeTopic_data, normalizeTopic_data]
  exact charsEquiv_map_normChar _ _ h

/-! ### Helper lemmas on substring containment -/

theorem leadsList_self_append (n t : List Char) : leadsList n (n ++ t) = true := by
  induction n with
  | nil => rfl
  | cons a as ih => simp [leadsList, ih]

theorem occursIn_nil_needle (h : List Char) : occursIn [] h = true := by
  cases h <;> simp [occursIn, leadsList]

theorem occursIn_self_append (n t : List Char) : occursIn n (n ++ t) = true := by
  cases n with
  | nil => exact occursIn_nil_needle _
  | cons a as =>
    simp only [List.cons_append, occursIn]
    rw [show a :: (as ++ t) = (a :: as) ++ t from rfl, leadsList_self_append]
    rfl

theorem occursIn_append_left (n pre h : List Char) (hh : occursIn n h = true) :
    occursIn n (pre ++ h) = true := by
  induction pre with
  | nil => exact hh
  | cons x xs ih =>
    simp only [List.cons_append, occursIn, List.append_eq, ih, Bool.or_true]

theorem occursIn_of_split (x h a b : List Char) (hsplit : h = a ++ (x ++ b)) :
    occursIn x h = true := by
  subst hsplit
  exact occursIn_append_left _ _ _ (occursIn_self_append x b)

theorem containsStr_of_split (h x a b : String) (hsplit : h = a ++ (x ++ b)) :
    containsStr h x = true := by
  apply occursIn_of_split x.data h.data a.data b.data
  subst hsplit
  simp [String.data_append]

/-! ### Helper lemmas on the context construction -/

theorem foldl_contextLine (l : List PaperRecord) (init : String) :
    l.foldl (fun acc p => acc ++ contextLine p) init = init ++ joinLines l := by
  induction l generalizing init with
  | nil => simp [joinLines]
  | cons p rest ih => simp [joinLines, ih, String.append_assoc]

theorem joinLines_split (p : PaperRecord) (l : List PaperRecord) (h : p ∈ l) :
    ∃ a b, joinLines l = a ++ (contextLine p ++ b) := by
  induction l with
  | nil => cases h
  | cons q rest ih =>
    rcases List.mem_cons.mp h with hq | hrest
    · subst hq
      exact ⟨"", joinLines rest, by simp [joinLines]⟩
    · obtain ⟨a, b, hab⟩ := ih hrest
      exact ⟨contextLine q ++ a, b, by simp [joinLines, hab, String.append_assoc]⟩

theorem buildContext_eq (papers : List PaperRecord) (hne : papers ≠ []) :
    buildContext papers =
      "Here are some recent papers I found:\n\n" ++ joinLines (papers.take 3) := by
  rw [buildContext, if_neg (by simpa using hne), foldl_contextLine]

theorem pySlice_of_short (s : String) (n : Nat) (h : s.data.length ≤ n) :
    pySlice s n = s := by
  simp [pySlice, List.take_of_length_le h]

/-! ### Helper lemmas on the conversation log -/

/-- The pair of turns one submission appends to the log. -/
def turnPair (configured : Bool) (sub : String × Except String String) : List Turn :=
  [⟨"user", sub.1⟩, ⟨"assistant", chat_with_claude configured sub.2⟩]

theorem foldl_chatStep (configured : Bool)
    (subs : List (String × Except String String)) (h : List Turn) :
    subs.foldl (chatStep configured) h = h ++ (subs.map (turnPair configured)).flatten := by
  induction subs generalizing h with
  | nil => simp
  | cons s rest ih => simp [chatStep, turnPair, ih, List.append_assoc]

theorem alternatesUA_flatten_pairs (configured : Bool)
    (subs : List (String × Except String String)) :
    alternatesUA ((subs.map (turnPair configured)).flatten) = true := by
  induction subs with
  | nil => rfl
  | cons s rest ih =>
    simp only [List.map_cons, List.flatten_cons, turnPair, List.cons_append,
      List.nil_append, alternatesUA, ih]
    exact ih

theorem length_flatten_pairs (configured : Bool)
    (subs : List (String × Except String String)) :
    ((subs.map (turnPair configured)).flatten).length = 2 * subs.length := by
  induction subs with
  | nil => rfl
  | cons s rest ih =>
    simp only [List.map_cons, List.flatten_cons, List.length_append, ih, turnPair,
      List.length_cons, List.length_nil]
    omega

/-! ### Helper lemmas on key provenance and the persisted projection -/

theorem all_dictInsert {α : Type} (P : String × α → Bool) (k : String) (v : α)
    (d : List (String × α)) (hd : d.all P = true) (hkv : P (k, v) = true) :
    (dictInsert k v d).all P = true := by
  induction d with
  | nil => simp [dictInsert, hkv]
  | cons hd₀ rest ih =>
    obtain ⟨k₀, v₀⟩ := hd₀
    simp only [List.all_cons, Bool.and_eq_true] at hd
    by_cases h : k₀ = k
    · subst h
      simp [dictInsert, hkv, hd.2]
    · simp only [dictInsert, if_neg h, List.all_cons, hd.1, Bool.true_and]
      exact ih hd.2

theorem buildPapersInfo_all (B : List PaperRecord) (P : String × PaperInfo → Bool)
    (hP : ∀ p ∈ B, P (p.id, projectPaper p) = true) :
    (buildPapersInfo B).all P = true := by
  suffices h : ∀ (l : List PaperRecord) (acc : Bucket),
      (∀ p ∈ l, P (p.id, projectPaper p) = true) → acc.all P = true →
      (l.foldl (fun a p => dictInsert p.id (projectPaper p) a) acc).all P = true by
    exact h B [] hP rfl
  intro l
  induction l with
  | nil => intro acc _ hacc; exact hacc
  | cons p rest ih =>
    intro acc hl hacc
    rw [List.foldl_cons]
    exact ih _ (fun q hq => hl q (List.mem_cons_of_mem _ hq))
      (all_dictInsert P p.id (projectPaper p) acc hacc (hl p (List.mem_cons_self ..)))

theorem buildPapersInfo_strip (papers : List PaperRecord) :
    buildPapersInfo (papers.map stripUnpersisted) = buildPapersInfo papers := by
  rw [buildPapersInfo, buildPapersInfo, List.foldl_map]
  rfl

theorem buildContext_split (papers : List PaperRecord) (p : PaperRecord)
    (hmem : p ∈ papers.take 3) :
    ∃ a b, buildContext papers =
      a ++ (pySlice p.summary 200 ++ ("..." ++ b)) := by
  have hne : papers ≠ [] := by
    intro h
    subst h
    simp at hmem
  obtain ⟨a, b, hab⟩ := joinLines_split p _ hmem
  refine ⟨"Here are some recent papers I found:\n\n" ++
    (a ++ ("- " ++ (p.title ++ (" by " ++ (p.authors_str ++ ("\n" ++ "  Summary: ")))))),
    "\n\n" ++ b, ?_⟩
  rw [buildContext_eq papers hne, hab]
  apply String.ext
  simp only [contextLine, String.data_append, List.append_assoc]

/-! ### Claims -/

/-- C1 counterexample: a successful arXiv search whose store save fails. The
claim requires an empty returned sequence on any failure from the topic
store's save, but `search_papers` still returns the full record list because
`save_papers_to_file` catches its own exception and never re-raises. -/
theorem C1_counterexample :
    (search_papers "ai" (Except.ok [rawSample]) (some "disk full")
      { store := [], errors := [] }).1 ≠ [] := by
  decide

/-- C1 (amended): `search_papers` is total from the caller's viewpoint —
every collaborator outcome and every save outcome yields a normal return.
On a search-collaborator failure it returns the empty sequence and reports
the failure; on a store-save failure the failure is reported but the
normalized records are still returned; on success the records are returned
and persisted. -/
theorem C1_search_papers_total (topic : String) :
    (∀ e writeFail st, search_papers topic (Except.error e) writeFail st =
        ([], { st with errors := st.errors ++ ["Error searching papers: " ++ e] })) ∧
    (∀ raws f st, search_papers topic (Except.ok raws) (some f) st =
        (raws.map rawToRecord,
          { st with errors := st.errors ++ ["Error saving papers: " ++ f] })) ∧
    (∀ raws st, search_papers topic (Except.ok raws) none st =
        (raws.map rawToRecord,
          { st with store := save_papers_to_file topic (raws.map rawToRecord) st.store })) :=
  ⟨fun _ _ _ => rfl, fun _ _ _ => rfl, fun _ _ => rfl⟩

/-- C2 counterexample: with duplicate identifiers in the saved sequence, the
later record's projection overwrites the earlier one, so `find_by_id` of the
shared id does not return the earlier record's fields even though that
record is in the sequence. -/
theorem C2_counterexample :
    recDupA ∈ [recDupA, recDupB] ∧
    get_paper_info recDupA.id (save_papers_to_file "t" [recDupA, recDupB] []) ≠
      some { title := recDupA.title, authors := recDupA.authors,
             summary := recDupA.summary, pdf_url := recDupA.pdf_url,
             published := recDupA.published } := by
  decide

/-- C2 (amended): the persistence round-trip holds when the saved records
have pairwise-distinct identifiers and no other topic bucket of the store
contains any of them: after `save_papers_to_file topic records store`,
`get_paper_info r.id` returns exactly r's title, authors, summary, pdf_url
and published for every r in records. -/
theorem C2_round_trip (topic : String) (records : List PaperRecord)
    (store : Store) (r : PaperRecord) (hdis : distinctIds records = true)
    (hmem : r ∈ records)
    (hstore : ∀ kb ∈ store, kb.1 ≠ normalizeTopic topic →
      dictLookup r.id kb.2 = none) :
    get_paper_info r.id (save_papers_to_file topic records store) =
      some { title := r.title, authors := r.authors, summary := r.summary,
             pdf_url := r.pdf_url, published := r.published } := by
  rw [get_paper_info, save_papers_to_file]
  rw [findInBuckets_dictInsert r.id (normalizeTopic topic)
    (buildPapersInfo records) store (projectPaper r)
    (dictLookup_buildPapersInfo_of_distinct records r hdis hmem) hstore]
  rfl

/-- C2 witness: a concrete round-trip through an empty store. -/
theorem C2_round_trip_witness :
    distinctIds [mkRec "a1" "tA" "x" "sA", mkRec "b2" "tB" "y" "sB"] = true ∧
    get_paper_info "a1" (save_papers_to_file "Some Topic"
        [mkRec "a1" "tA" "x" "sA", mkRec "b2" "tB" "y" "sB"] []) =
      some { title := "tA", authors := ["x"], summary := "sA",
             pdf_url := "u", published := "2020-01-01" } := by
  refine ⟨by decide, ?_⟩
  exact C2_round_trip "Some Topic"
    [mkRec "a1" "tA" "x" "sA", mkRec "b2" "tB" "y" "sB"] []
    (mkRec "a1" "tA" "x" "sA") (by decide) (by decide) (by simp)

/-- C3: overwrite semantics: saving topic X with A and then again with B
leaves the bucket under the normalized key of X exactly the projection dict
of B, and every key of that bucket is the identifier of some record of B —
nothing from A survives unless its identifier also occurs in B. -/
theorem C3_overwrite (X : String) (A B : List PaperRecord) (s : Store) :
    dictLookup (normalizeTopic X)
        (save_papers_to_file X B (save_papers_to_file X A s)) =
      some (buildPapersInfo B) ∧
    (buildPapersInfo B).all (fun kv => B.any (fun r => r.id == kv.1)) = true := by
  constructor
  · rw [save_papers_to_file, dictLookup_dictInsert_self]
  · apply buildPapersInfo_all
    intro p hp
    exact List.any_eq_true.mpr ⟨p, hp, by simp⟩

/-- C4: `get_paper_info` scans the buckets in enumeration order: its result
is the entry for `paper_id` of the first bucket whose keys contain it
(first match wins when the id occurs in several buckets), and it is the
not-found signal `none` when no bucket contains the id. -/
theorem C4_get_paper_info_scan (pid : String) (store : Store) :
    (get_paper_info pid store =
      (store.find? (fun b => (dictLookup pid b.2).isSome)).bind
        (fun b => dictLookup pid b.2)) ∧
    (∀ pre k b post v, store = pre ++ (k, b) :: post →
      (∀ kb ∈ pre, dictLookup pid kb.2 = none) →
      dictLookup pid b = some v →
      get_paper_info pid store = some v) ∧
    ((∀ kb ∈ store, dictLookup pid kb.2 = none) →
      get_paper_info pid store = none) := by
  refine ⟨findInBuckets_eq_find? pid store, ?_, ?_⟩
  · intro pre k b post v hsplit hpre hb
    rw [get_paper_info, hsplit]
    exact findInBuckets_first_match pid pre k b post v hpre hb
  · intro h
    exact findInBuckets_eq_none pid store h

/-- C4 witness: with the same id in two buckets the first bucket wins, and a
missing id yields `none`. -/
theorem C4_get_paper_info_scan_witness :
    get_paper_info "x1"
        [("t1", [("x1", infoOf recDupA)]), ("t2", [("x1", infoOf recDupB)])] =
      some (infoOf recDupA) ∧
    get_paper_info "nope" [("t1", [("x1", infoOf recDupA)])] = none := by
  constructor
  · exact (C4_get_paper_info_scan "x1" _).2.1 [] "t1" [("x1", infoOf recDupA)]
      [("t2", [("x1", infoOf recDupB)])] (infoOf recDupA) rfl (by simp) (by decide)
  · exact (C4_get_paper_info_scan "nope" _).2.2 (by decide)

/-- C5: `save_papers_to_file` stores the bucket under the topic lower-cased
with spaces replaced by underscores, so two topic strings differing only in
letter case or in spaces-vs-underscores normalize to the same key and hence
address the same bucket. -/
theorem C5_topic_normalization (t1 t2 : String) (papers : List PaperRecord)
    (store : Store) (hequiv : topicsEquiv t1 t2 = true) :
    normalizeTopic t1 = normalizeTopic t2 ∧
    dictLookup (normalizeTopic t2) (save_papers_to_file t1 papers store) =
      some (buildPapersInfo papers) := by
  have h := normalizeTopic_eq_of_equiv t1 t2 hequiv
  refine ⟨h, ?_⟩
  rw [save_papers_to_file, ← h, dictLookup_dictInsert_self]

/-- C5 witness: "Quantum Computing" and "quantum computing" share the bucket
key "quantum_computing". -/
theorem C5_topic_normalization_witness :
    topicsEquiv "Quantum Computing" "quantum computing" = true ∧
    normalizeTopic "Quantum Computing" = normalizeTopic "quantum computing" ∧
    normalizeTopic "Quantum Computing" = "quantum_computing" := by
  refine ⟨by decide, ?_, by decide⟩
  exact (C5_topic_normalization "Quantum Computing" "quantum computing"
    [] [] (by decide)).1

/-- C6: the persisted projection: a record is persisted under its identifier
with exactly title, authors, summary, pdf_url and published; blanking
categories and primary_category leaves the persisted bucket unchanged, so
those fields are never persisted; and save writes exactly that projection
dict into the topic's bucket. -/
theorem C6_persisted_projection (papers : List PaperRecord) (r : PaperRecord)
    (topic : String) (store : Store) :
    buildPapersInfo [r] =
      [(r.id, { title := r.title, authors := r.authors, summary := r.summary,
                pdf_url := r.pdf_url, published := r.published })] ∧
    buildPapersInfo (papers.map stripUnpersisted) = buildPapersInfo papers ∧
    dictLookup (normalizeTopic topic) (save_papers_to_file topic papers store) =
      some (buildPapersInfo papers) := by
  refine ⟨rfl, buildPapersInfo_strip papers, ?_⟩
  rw [save_papers_to_file, dictLookup_dictInsert_self]

/-- C7 counterexample: the context includes only the first three records.
The fourth record's summary is shorter than the bound, yet it does not
appear in the built context at all, contradicting the claim's
quantification over every record of the sequence. -/
theorem C7_counterexample :
    recP4.summary.data.length < 200 ∧
    containsStr (buildContext [recP1, recP2, recP3, recP4]) recP4.summary = false := by
  decide

/-- C7 (amended): truncation for the records the context actually includes,
namely the first three of the sequence: a summary longer than 200 code
points contributes exactly its first 200 characters followed by the
ellipsis marker "...", and a summary shorter than the bound appears in
full. -/
theorem C7_truncation (papers : List PaperRecord) (p : PaperRecord)
    (hmem : p ∈ papers.take 3) :
    (200 < p.summary.data.length →
      containsStr (buildContext papers) (pySlice p.summary 200 ++ "...") = true) ∧
    (p.summary.data.length < 200 →
      containsStr (buildContext papers) p.summary = true) := by
  obtain ⟨a, b, hab⟩ := buildContext_split papers p hmem
  constructor
  · intro _
    apply containsStr_of_split _ _ a b
    rw [hab, String.append_assoc]
  · intro hlen
    have hs : pySlice p.summary 200 = p.summary :=
      pySlice_of_short _ _ (Nat.le_of_lt hlen)
    apply containsStr_of_split _ _ a ("..." ++ b)
    rw [hab, hs]

set_option maxRecDepth 40000 in
/-- C7 witness: a 201-character summary contributes its 200-character slice
plus "...", and a short summary appears in full. -/
theorem C7_truncation_witness :
    (recPLong ∈ [recPLong].take 3 ∧ 200 < recPLong.summary.data.length ∧
      containsStr (buildContext [recPLong])
        (pySlice recPLong.summary 200 ++ "...") = true) ∧
    (recP1 ∈ [recP1].take 3 ∧ recP1.summary.data.length < 200 ∧
      containsStr (buildContext [recP1]) recP1.summary = true) := by
  refine ⟨⟨by decide, by decide, ?_⟩, ⟨by decide, by decide, ?_⟩⟩
  · exact (C7_truncation [recPLong] recPLong (by decide)).1 (by decide)
  · exact (C7_truncation [recP1] recP1 (by decide)).2 (by decide)

/-- C8: after any sequence of user submissions the session log alternates
user, assistant, user, assistant, ... starting with a user turn, and has
even length (exactly one assistant turn per user turn); a failing chat call
— API error or missing configuration — still appends an assistant turn
whose content is the descriptive failure message. -/
theorem C8_conversation_invariant (configured : Bool)
    (subs : List (String × Except String String)) :
    alternatesUA (runChat configured subs) = true ∧
    (runChat configured subs).length = 2 * subs.length ∧
    (∀ h prompt e, chatStep true h (prompt, Except.error e) =
      h ++ [⟨"user", prompt⟩,
            ⟨"assistant", "❌ Error calling Claude: " ++ e⟩]) ∧
    (∀ h prompt res, chatStep false h (prompt, res) =
      h ++ [⟨"user", prompt⟩,
            ⟨"assistant", "❌ Anthropic API not configured. Please set ANTHROPIC_API_KEY in your .env file."⟩]) := by
  refine ⟨?_, ?_, fun h prompt e => rfl, fun h prompt res => rfl⟩
  · rw [runChat, foldl_chatStep]
    simpa using alternatesUA_flatten_pairs configured subs
  · rw [runChat, foldl_chatStep]
    simpa using length_flatten_pairs configured subs

/-- C9: the context built from the empty record sequence is the empty
string — no header, no separators. -/
theorem C9_empty_context : buildContext [] = "" := rfl

/-- C10: within one save, a later record with the same identifier silently
overwrites the earlier one: the bucket's keys are pairwise distinct (one
entry per distinct identifier) and lookup of any id returns the projection
of the last record in the sequence carrying that id. -/
theorem C10_last_wins (papers : List PaperRecord) :
    noDupKeysB (buildPapersInfo papers) = true ∧
    ∀ k, dictLookup k (buildPapersInfo papers) =
      (papers.reverse.find? (fun r => r.id == k)).map projectPaper :=
  ⟨noDupKeysB_foldl_dictInsert papers [] rfl,
   fun k => dictLookup_buildPapersInfo papers k⟩
